import Mathlib

/-!
Verification of the asset-service customization layer (services/assets plus the
Aliyun OSS offload helpers). The definitions below are a shallow embedding of
the TypeScript source: pure helpers become Lean functions, the two service
entry points become functions from an explicit environment to a result paired
with the ordered list of external effects they perform (database queries,
storage calls, semaphore operations). JavaScript truthiness on numbers and
strings is modelled explicitly where the source relies on it.
-/

namespace Assets

/-- Byte range as in the drive Range type. The field stop embeds the source
field named end (a reserved word in Lean); both bounds are optional signed
numbers, as in the source. -/
structure Range where
  start : Option Int
  stop : Option Int
deriving DecidableEq

/-- Row of directus_settings selected by the services; each column is nullable. -/
structure PublicSettings where
  project_logo : Option String
  public_background : Option String
  public_foreground : Option String
deriving DecidableEq

/-- Accountability object; admin is a nullable boolean. -/
structure Accountability where
  admin : Option Bool
deriving DecidableEq

/-- File record from directus_files, with the fields the service reads. -/
structure File where
  id : String
  storage : String
  filename_disk : String
  type : Option String
  filesize : Int
  width : Option Int
  height : Option Int
deriving DecidableEq

/-- Options object of a sharp resize operation, with the fields the offload
rewriter reads. -/
structure ResizeOptions where
  fit : Option String
  width : Option Int
  height : Option Int
deriving DecidableEq

/-- First argument of a transformation operation. The source destructures a
Transformation tuple as a method name plus its argument; the argument can be a
resize options object, a string, a number, or some other truthy value. -/
inductive TransformArg where
  | resize (o : ResizeOptions)
  | str (s : String)
  | num (n : Int)
  | otherTruthy
deriving DecidableEq

/-- One transformation operation: the source represents it as a tuple whose
head is the method name and whose second entry is the argument. -/
structure Transformation where
  method : String
  args : Option TransformArg
deriving DecidableEq

/-- JavaScript truthiness of the optional operation argument: undefined, the
number 0 and the empty string are falsy, every other modelled value is truthy. -/
def argTruthy : Option TransformArg → Bool
  | none => false
  | some (TransformArg.num n) => n != 0
  | some (TransformArg.str s) => s != ""
  | some _ => true

/-- JavaScript truthiness of a nullable number: undefined and 0 are falsy. -/
def numTruthy : Option Int → Bool
  | none => false
  | some n => n != 0

/-- Modelled from the spec: TransformationUtils.resolvePreset lives in
utils/transformations, which is not part of the provided sources. Per the spec
it is a pure resolver turning a named preset or inline params into the
normalized ordered operation list; the request is modelled as carrying its
resolved operation list together with the optional explicit suffix. -/
structure TransformationRequest where
  suffix : Option String
  resolved : List Transformation
deriving DecidableEq

/-- Modelled from the spec: the pure resolver returning the ordered operation
list for a request and file (see TransformationRequest). -/
def resolvePreset (transformation : TransformationRequest) (_file : File) : List Transformation :=
  transformation.resolved

/-- Modelled from the spec: TransformationUtils.maybeExtractFormat lives in
utils/transformations, which is not part of the provided sources. Per the spec
the extension becomes the new target format when the operation list contains a
format-changing operation; modelled as extracting the string argument of a
toFormat operation. -/
def maybeExtractFormat (transforms : List Transformation) : Option String :=
  match transforms.find? (fun t => t.method == "toFormat") with
  | some t =>
    match t.args with
    | some (TransformArg.str s) => some s
    | _ => none
  | none => none

/-- Models the external object-hash library used by getAssetSuffix: a
deterministic content hash of the ordered operation list, rendered as a hex
string. Only determinism and sensitivity to order and argument values matter
for the embedding; the concrete digest differs from the real library. -/
def serializeArg : Option TransformArg → String
  | none => "u"
  | some (TransformArg.resize o) =>
    "r(" ++ toString o.fit ++ "," ++ toString o.width ++ "," ++ toString o.height ++ ")"
  | some (TransformArg.str s) => "s(" ++ s ++ ")"
  | some (TransformArg.num n) => "n(" ++ toString n ++ ")"
  | some TransformArg.otherTruthy => "o"

/-- Serialization of one operation feeding the modelled hash. -/
def serializeTransformation (t : Transformation) : String :=
  t.method ++ "[" ++ serializeArg t.args ++ "]"

/-- Rolling character hash feeding the modelled object hash. -/
def strCode (s : String) : Nat :=
  s.toList.foldl (fun a c => (a * 131 + c.toNat) % 1099511627775) 7

/-- Models the external object-hash library (see serializeArg). -/
def objectHash (transforms : List Transformation) : String :=
  String.mk (Nat.toDigits 16 (strCode (String.intercalate (";") (transforms.map serializeTransformation))))

/-- Embeds getAssetSuffix: empty operation list gives no suffix; a truthy
(non-empty) explicit suffix is appended after a dot; otherwise the object hash
is appended after two underscores. -/
def getAssetSuffix (transforms : List Transformation) (suffix : Option String) : String :=
  if transforms.length = 0 then ("")
  else
    match suffix with
    | some s => if s != "" then ("." ++ s) else ("__" ++ objectHash transforms)
    | none => "__" ++ objectHash transforms

/-- Embeds the fit-mode switch of addAliyunOSSImageProcessParamsToURL: the
exact fragment appended to the command for each supported sharp fit mode, and
none for the default case (which makes the rewriter return the empty string). -/
def fitMode (fit : Option String) : Option String :=
  match fit with
  | some s =>
    if s = "contain" then some (",m_lfit")
    else if s = "cover" then some (",m_fill")
    else if s = "inside" then some (",m_lfit")
    else if s = "outside" then some (",mfit")
    else if s = "fill" then some (",fill")
    else none
  | none => none

/-- Embeds the resize case of the rewriter switch: the fit fragment followed by
width and height fragments, each appended only when the option is truthy. -/
def resizeCmd (o : ResizeOptions) : Option String :=
  match fitMode o.fit with
  | none => none
  | some m =>
    let c1 := "resize" ++ m
    let c2 := c1 ++ (match o.width with
      | some ww => if ww != 0 then (",w_" ++ toString ww) else ("")
      | none => (""))
    let c3 := c2 ++ (match o.height with
      | some hh => if hh != 0 then (",h_" ++ toString hh) else ("")
      | none => (""))
    some c3

/-- Outcome of the rewriter loop body for one operation: skipped when method or
argument is falsy, rejected when the switch falls to a default case, or one
command string. -/
inductive OpCmd where
  | skip
  | reject
  | cmd (s : String)
deriving DecidableEq

/-- Embeds the body of the rewriter loop for one operation. A resize whose
argument is not a resize options object reads an undefined fit and falls to
the default case, hence reject. -/
def opCmd (t : Transformation) : OpCmd :=
  if t.method = "" || !(argTruthy t.args) then OpCmd.skip
  else if t.method = "resize" then
    match t.args with
    | some (TransformArg.resize o) =>
      match resizeCmd o with
      | some c => OpCmd.cmd c
      | none => OpCmd.reject
    | _ => OpCmd.reject
  else OpCmd.reject

/-- Embeds the rewriter loop: accumulates slash-separated commands, returning
none as soon as any operation rejects (the early return of the empty string). -/
def buildProcess : List Transformation → Option String
  | [] => some ("")
  | t :: ts =>
    match opCmd t with
    | OpCmd.skip => buildProcess ts
    | OpCmd.reject => none
    | OpCmd.cmd c =>
      match buildProcess ts with
      | none => none
      | some rest => some ("/" ++ c ++ rest)

/-- Models form-urlencoding of one character as URLSearchParams serializes it:
alphanumerics and a few marks stay, space becomes a plus, everything else (only
ASCII arises here) becomes a percent escape with uppercase hex digits. -/
def formEncodeChar (c : Char) : String :=
  if c.isAlphanum || c = '*' || c = '-' || c = '.' || c = '_' then String.mk [c]
  else if c = ' ' then ("+")
  else
    let digits := ['0','1','2','3','4','5','6','7','8','9','A','B','C','D','E','F']
    String.mk ['%', digits.getD (c.toNat / 16 % 16) '0', digits.getD (c.toNat % 16) '0']

/-- Models URLSearchParams serialization of one string. -/
def formEncode (s : String) : String :=
  String.join (s.toList.map formEncodeChar)

/-- Splits a character list at every occurrence of the separator, keeping
empty segments, as the JavaScript single-character split does. -/
def splitListOn (c : Char) : List Char → List (List Char)
  | [] => [[]]
  | x :: xs =>
    let r := splitListOn c xs
    if x = c then [] :: r
    else
      match r with
      | [] => [[x]]
      | h :: t => (x :: h) :: t

/-- String wrapper of splitListOn (kernel-computable stand-in for the split
calls of the source, whose separators are all single characters). -/
def splitStrOn (c : Char) (s : String) : List String :=
  (splitListOn c s.toList).map String.mk

/-- Models URLSearchParams parsing of one key=value pair (percent decoding is
not modelled; the service only feeds it percent-free URLs in the claims). -/
def parsePair (s : String) : String × String :=
  match splitStrOn '=' s with
  | [] => ("", "")
  | k :: rest => (k, String.intercalate ("=") rest)

/-- Models URLSearchParams parsing of a query string. -/
def parseQuery (q : String) : List (String × String) :=
  if q = "" then []
  else ((splitStrOn '&' q).filter (fun s => s != "")).map parsePair

/-- Models URLSearchParams.set: replaces the first occurrence of the key and
drops later ones, or appends the pair at the end when the key is absent. The
boolean carries whether the key was already seen. -/
def setParamGo : List (String × String) → String → String → Bool → List (String × String)
  | [], k, v, found => if found then [] else [(k, v)]
  | p :: ps, k, v, found =>
    if p.fst = k then
      if found then setParamGo ps k v true
      else (k, v) :: setParamGo ps k v true
    else p :: setParamGo ps k v found

/-- Models URLSearchParams.set starting with no occurrence seen. -/
def setParam (ps : List (String × String)) (k v : String) : List (String × String) :=
  setParamGo ps k v false

/-- Models URLSearchParams.toString. -/
def searchParamsToString (ps : List (String × String)) : String :=
  String.intercalate ("&") (ps.map (fun p => formEncode p.fst ++ "=" ++ formEncode p.snd))

/-- Embeds addAliyunOSSImageProcessParamsToURL: builds the process command
string from the operation list, returns the empty string if any operation
rejects, returns the url unchanged if no command accumulated, and otherwise
sets the x-oss-process query parameter on the url (split at question marks as
the source does, keeping only the first two segments). -/
def addAliyunOSSImageProcessParamsToURL (url : String) (transforms : List Transformation) : String :=
  match buildProcess transforms with
  | none => ("")
  | some process =>
    if process = "" then url
    else
      let parts := splitStrOn '?' url
      let base := parts.headD ("")
      let query := (parts.drop 1).headD ("")
      base ++ "?" ++ searchParamsToString (setParam (parseQuery query) ("x-oss-process") ("image" ++ process))

/-- Embeds the range rejection check of getAsset (lines 69 to 77 of the
source): both bounds absent, end at or before start when both present, start
at or past the file size, or a present end at or below zero. -/
def rangeRejected (filesize : Int) (r : Range) : Bool :=
  let missingRangeLimits := r.start.isNone && r.stop.isNone
  let endBeforeStart := r.start.isSome && r.stop.isSome && decide (r.stop.getD 0 ≤ r.start.getD 0)
  let startOverflow := r.start.isSome && decide (filesize ≤ r.start.getD 0)
  let endUnderflow := r.stop.isSome && decide (r.stop.getD 0 ≤ 0)
  missingRangeLimits || endBeforeStart || startOverflow || endUnderflow

/-- Embeds the range normalization of getAsset (lines 79 to 104 of the
source), including the JavaScript truthiness of the two outer guards: a bound
equal to 0 is falsy and skips its block. The first block is guarded by the
original end value; when start is absent it fetches the tail chunk, and the
whole-file clamp then reads the updated end. The second block is guarded by
the possibly updated start value. -/
def normalizeRange (filesize : Int) (r : Range) : Range :=
  let lastByte := filesize - 1
  let r1 :=
    match r.stop with
    | none => r
    | some e =>
      if e = 0 then r
      else
        let a :=
          match r.start with
          | none => Range.mk (some (filesize - e)) (some lastByte)
          | some _ => r
        match a.stop with
        | none => a
        | some e2 => if filesize ≤ e2 then Range.mk a.start (some lastByte) else a
  match r1.start with
  | none => r1
  | some s =>
    if s = 0 then r1
    else
      let b :=
        match r1.stop with
        | none => Range.mk r1.start (some lastByte)
        | some _ => r1
      if s < 0 then Range.mk (some 0) b.stop else b

/-- Embeds the dimension guard shared by getAsset and getUrl: width or height
falsy (absent or zero), or either dimension above the configured maximum. -/
def dimensionGuardFails (maxDim : Int) (w h : Option Int) : Bool :=
  !(numTruthy w) || !(numTruthy h) || decide (maxDim < w.getD 0) || decide (maxDim < h.getD 0)

/-- One step of the sharp pipeline: the metadata auto-orientation rotate or an
operation from the resolved list. -/
inductive PipeStep where
  | autoOrient
  | op (t : Transformation)
deriving DecidableEq

/-- Embeds the pipeline getAsset builds inside the gated section: the
auto-orientation rotate is prepended only when the resolved list contains no
explicit rotate operation, then the operations are applied in order. -/
def buildPipelineGetAsset (transforms : List Transformation) : List PipeStep :=
  (match transforms.find? (fun t => t.method == "rotate") with
   | none => [PipeStep.autoOrient]
   | some _ => []) ++ transforms.map PipeStep.op

/-- Embeds the pipeline the getUrl fallback builds inside the gated section:
the source calls rotate unconditionally before applying the operations in
order. -/
def buildPipelineGetUrl (transforms : List Transformation) : List PipeStep :=
  PipeStep.autoOrient :: transforms.map PipeStep.op

/-- Models the external uuid-validate library for version 4: 36 characters,
hyphens at positions 8, 13, 18 and 23, the version nibble 4 at position 14, a
variant nibble at position 19, hex digits elsewhere. -/
def isValidUUIDv4 (s : String) : Bool :=
  let cs := s.toList
  cs.length == 36 &&
  (List.range 36).all (fun i =>
    let c := cs.getD i ' '
    if i == 8 || i == 13 || i == 18 || i == 23 then c == '-'
    else if i == 14 then c == '4'
    else if i == 19 then c == '8' || c == '9' || c == 'a' || c == 'b' || c == 'A' || c == 'B'
    else c.isDigit || ('a' ≤ c && c ≤ 'f') || ('A' ≤ c && c ≤ 'F'))

/-- Models Node path.extname for slash-free names: the substring from the last
dot, empty when there is no dot or the only dot starts the name. -/
def extname (s : String) : String :=
  let cs := s.toList
  match (List.range cs.length).foldl
      (fun acc i => if cs.getD i ' ' = '.' then some i else acc) none with
  | some i => if 0 < i then String.mk (cs.drop i) else ("")
  | none => ("")

/-- Models Node path.basename with an extension argument for slash-free names:
strips the extension when the name ends with it and is longer than it. Uses
character lists so that the kernel can evaluate it. -/
def basenameWithoutExt (s ext : String) : String :=
  let cs := s.toList
  let ce := ext.toList
  if ext != "" && ce.isSuffixOf cs && decide (ce.length < cs.length) then
    String.mk (cs.take (cs.length - ce.length))
  else s

/-- Models the external mime-types contentType lookup for the extensions that
can arise here; unknown extensions give none, matching the source fallback to
null. -/
def contentTypeOf (name : String) : Option String :=
  let e := extname name
  if e == ".jpg" || e == ".jpeg" then some ("image/jpeg")
  else if e == ".png" then some ("image/png")
  else if e == ".webp" then some ("image/webp")
  else if e == ".tiff" || e == ".tif" then some ("image/tiff")
  else if e == ".avif" then some ("image/avif")
  else none

/-- Descriptor of the stream handed to a storage put: the gated sections pipe
the read stream of the original file (opened with the given byte range) into
the sharp pipeline. -/
inductive StreamSrc where
  | piped (storageKey : String) (name : String) (range : Option Range) (pipeline : List PipeStep)
deriving DecidableEq

/-- External effects of the two service methods, in the order the source
performs them: the settings query, the authorization check, the file query,
and the storage adapter and semaphore operations. -/
inductive Effect where
  | dbSettings
  | authCheck (id : String)
  | dbFiles (id : String)
  | storageExists (storageKey : String) (name : String)
  | storageGetStream (storageKey : String) (name : String) (range : Option Range)
  | storageGetStat (storageKey : String) (name : String)
  | storagePut (storageKey : String) (name : String) (src : StreamSrc) (ctype : Option String)
  | storageGetUrl (storageKey : String) (name : String)
  | driverName (storageKey : String)
  | semAcquire
  | semRelease
deriving DecidableEq

/-- Failure modes of the service (the exceptions it throws). -/
inductive AssetError where
  | forbidden
  | rangeNotSatisfiable
  | illegalAssetTransformation
deriving DecidableEq

/-- Handle of a returned byte stream: which stored object it reads and with
which byte range. -/
structure StreamHandle where
  storageKey : String
  name : String
  range : Option Range
deriving DecidableEq

/-- Handle of a getStat result: which stored object was statted. -/
structure StatHandle where
  storageKey : String
  name : String
deriving DecidableEq

/-- Result of getAsset: the stream, the possibly type-updated file record, and
the stat of the served object. -/
structure AssetResult where
  stream : StreamHandle
  file : File
  stat : StatHandle
deriving DecidableEq

/-- Result of getUrl: the url (possibly empty) and the file record, which the
source sets to null on the foreign-driver early return. -/
structure UrlResult where
  url : String
  file : Option File
deriving DecidableEq

/-- External collaborators of the service: settings row, file metadata store,
storage adapter state and the authorization check, all read-only during one
call. -/
structure World where
  publicSettings : Option PublicSettings
  files : String → Option File
  storageExists : String → String → Bool
  checkAccess : String → Bool
  driverName : String → String
  storageUrl : String → String → String

/-- Configuration read from env. -/
structure Env where
  maxDimension : Int

/-- Embeds systemPublicKeys.includes(id): whether the id equals one of the
three nullable settings values. -/
def systemPublicIncludes (ps : Option PublicSettings) (id : String) : Bool :=
  match ps with
  | none => false
  | some p =>
    p.project_logo == some id || p.public_background == some id || p.public_foreground == some id

/-- Embeds the strict comparison of accountability admin with true through the
optional chain. -/
def isAdminTrue (acc : Option Accountability) : Bool :=
  match acc with
  | some a => a.admin == some true
  | none => false

/-- Embeds the guard of the authorization call: the id is not a public system
asset and the caller is not an admin. -/
def needsAuthCheck (w : World) (acc : Option Accountability) (id : String) : Bool :=
  !(systemPublicIncludes w.publicSettings id) && !(isAdminTrue acc)

/-- Embeds the transformability test shared by both methods: a truthy content
type that is one of the four transformable image types, and a non-empty
resolved operation list. -/
def isTransformableRequest (type0 : Option String) (transforms : List Transformation) : Bool :=
  match type0 with
  | none => false
  | some t =>
    t != "" && !(transforms.isEmpty) &&
    (t == "image/jpeg" || t == "image/png" || t == "image/webp" || t == "image/tiff")

/-- Embeds the variant filename derivation shared by both methods: base name
without extension, the asset suffix, then the new format extension when the
operation list changes the format, else the original extension. -/
def assetFilenameOf (file : File) (transforms : List Transformation) (suffix : Option String) : String :=
  basenameWithoutExt file.filename_disk (extname file.filename_disk) ++
  getAssetSuffix transforms suffix ++
  (match maybeExtractFormat transforms with
   | some f => "." ++ f
   | none => extname file.filename_disk)

/-- Embeds the in-place update of file.type from the variant filename content
type when the operation list changes the format. -/
def updateFileType (file : File) (name : String) : File :=
  File.mk file.id file.storage file.filename_disk (contentTypeOf name) file.filesize file.width file.height

/-- Embeds the range section of getAsset: absent range passes through, a
rejected range throws RangeNotSatisfiable, otherwise the range is normalized. -/
def checkRange (filesize : Int) : Option Range → Except AssetError (Option Range)
  | none => Except.ok none
  | some r =>
    if rangeRejected filesize r then Except.error AssetError.rangeNotSatisfiable
    else Except.ok (some (normalizeRange filesize r))

/-- Embeds AssetsService.getAsset as a function from the external world, the
configuration, the accountability, the id, the transformation request and the
optional range to the thrown error or result, paired with the ordered list of
external effects performed. The settings query happens before the UUID check,
as in the source; the gated section opens the source read stream with the
caller byte range, pipes it through the pipeline into the variant path, and
the returned stream and stat read the variant. -/
def getAsset (w : World) (env : Env) (acc : Option Accountability) (id : String)
    (transformation : TransformationRequest) (range : Option Range) :
    Except AssetError AssetResult × List Effect :=
  let t0 : List Effect := [Effect.dbSettings]
  if !(isValidUUIDv4 id) then (Except.error AssetError.forbidden, t0)
  else
    let needAuth := needsAuthCheck w acc id
    let t1 := t0 ++ (if needAuth then [Effect.authCheck id] else [])
    if needAuth && !(w.checkAccess id) then (Except.error AssetError.forbidden, t1)
    else
      let t2 := t1 ++ [Effect.dbFiles id]
      match w.files id with
      | none => (Except.error AssetError.forbidden, t2)
      | some file =>
        let t3 := t2 ++ [Effect.storageExists file.storage file.filename_disk]
        if !(w.storageExists file.storage file.filename_disk) then
          (Except.error AssetError.forbidden, t3)
        else
          match checkRange file.filesize range with
          | Except.error e => (Except.error e, t3)
          | Except.ok nrange =>
            let type0 := file.type
            let transforms := resolvePreset transformation file
            if isTransformableRequest type0 transforms then
              let assetFilename := assetFilenameOf file transforms transformation.suffix
              let t4 := t3 ++ [Effect.storageExists file.storage assetFilename]
              let file1 :=
                if (maybeExtractFormat transforms).isSome then updateFileType file assetFilename
                else file
              if w.storageExists file.storage assetFilename then
                (Except.ok (AssetResult.mk (StreamHandle.mk file.storage assetFilename nrange) file1
                    (StatHandle.mk file.storage assetFilename)),
                 t4 ++ [Effect.storageGetStream file.storage assetFilename nrange,
                        Effect.storageGetStat file.storage assetFilename])
              else if dimensionGuardFails env.maxDimension file.width file.height then
                (Except.error AssetError.illegalAssetTransformation, t4)
              else
                (Except.ok (AssetResult.mk (StreamHandle.mk file.storage assetFilename nrange) file1
                    (StatHandle.mk file.storage assetFilename)),
                 t4 ++ [Effect.semAcquire,
                        Effect.storageGetStream file.storage file.filename_disk nrange,
                        Effect.storagePut file.storage assetFilename
                          (StreamSrc.piped file.storage file.filename_disk nrange
                            (buildPipelineGetAsset transforms)) type0,
                        Effect.storageGetStream file.storage assetFilename nrange,
                        Effect.storageGetStat file.storage assetFilename,
                        Effect.semRelease])
            else
              (Except.ok (AssetResult.mk (StreamHandle.mk file.storage file.filename_disk nrange) file
                  (StatHandle.mk file.storage file.filename_disk)),
               t3 ++ [Effect.storageGetStream file.storage file.filename_disk nrange,
                      Effect.storageGetStat file.storage file.filename_disk])

/-- Embeds AssetsService.getUrl: same settings, UUID, authorization and file
steps as getAsset (with no existence check of the original), the foreign
driver early return with a null file, the Aliyun rewrite capped at 20 MiB, and
the local fallback that mirrors the getAsset variant block except that the
source read stream carries no range and the pipeline always starts with the
auto-orientation rotate. -/
def getUrl (w : World) (env : Env) (acc : Option Accountability) (id : String)
    (transformation : TransformationRequest) :
    Except AssetError UrlResult × List Effect :=
  let t0 : List Effect := [Effect.dbSettings]
  if !(isValidUUIDv4 id) then (Except.error AssetError.forbidden, t0)
  else
    let needAuth := needsAuthCheck w acc id
    let t1 := t0 ++ (if needAuth then [Effect.authCheck id] else [])
    if needAuth && !(w.checkAccess id) then (Except.error AssetError.forbidden, t1)
    else
      let t2 := t1 ++ [Effect.dbFiles id]
      match w.files id with
      | none => (Except.error AssetError.forbidden, t2)
      | some file =>
        let t3 := t2 ++ [Effect.driverName file.storage]
        if w.driverName file.storage != "aliyunoss" then
          (Except.ok (UrlResult.mk ("") none), t3)
        else
          let url0 := w.storageUrl file.storage file.filename_disk
          let t4 := t3 ++ [Effect.storageGetUrl file.storage file.filename_disk]
          let type0 := file.type
          let transforms := resolvePreset transformation file
          if isTransformableRequest type0 transforms then
            let url1 :=
              if file.filesize < 20971520 then addAliyunOSSImageProcessParamsToURL url0 transforms
              else ("")
            if url1 = "" then
              let assetFilename := assetFilenameOf file transforms transformation.suffix
              let t5 := t4 ++ [Effect.storageExists file.storage assetFilename]
              let file1 :=
                if (maybeExtractFormat transforms).isSome then updateFileType file assetFilename
                else file
              if w.storageExists file.storage assetFilename then
                (Except.ok (UrlResult.mk (w.storageUrl file.storage assetFilename) (some file1)),
                 t5 ++ [Effect.storageGetUrl file.storage assetFilename])
              else if dimensionGuardFails env.maxDimension file.width file.height then
                (Except.error AssetError.illegalAssetTransformation, t5)
              else
                (Except.ok (UrlResult.mk (w.storageUrl file.storage assetFilename) (some file1)),
                 t5 ++ [Effect.semAcquire,
                        Effect.storageGetStream file.storage file.filename_disk none,
                        Effect.storagePut file.storage assetFilename
                          (StreamSrc.piped file.storage file.filename_disk none
                            (buildPipelineGetUrl transforms)) type0,
                        Effect.storageGetUrl file.storage assetFilename,
                        Effect.semRelease])
            else (Except.ok (UrlResult.mk url1 (some file)), t4)
          else (Except.ok (UrlResult.mk url0 (some file)), t4)

/-- Whether an effect is a storage put. -/
def isPutEffect : Effect → Bool
  | Effect.storagePut _ _ _ _ => true
  | _ => false

/-- Whether an effect is a semaphore acquisition. -/
def isSemAcquire : Effect → Bool
  | Effect.semAcquire => true
  | _ => false

/-- Whether an effect touches the storage adapter. -/
def isStorageEffect : Effect → Bool
  | Effect.storageExists _ _ => true
  | Effect.storageGetStream _ _ _ => true
  | Effect.storageGetStat _ _ => true
  | Effect.storagePut _ _ _ _ => true
  | Effect.storageGetUrl _ _ => true
  | Effect.driverName _ => true
  | _ => false

/-- Whether an effect is a database query. -/
def isDbEffect : Effect → Bool
  | Effect.dbSettings => true
  | Effect.dbFiles _ => true
  | _ => false

/-- Whether an effect is the directus_files query. -/
def isFilesQuery : Effect → Bool
  | Effect.dbFiles _ => true
  | _ => false

/-- Condition under which one operation makes the rewriter reject remote
offload, as the spec describes it: truthy method and argument, and either a
method other than resize or a resize whose argument carries no supported fit
mode. Stated spec-side for comparison with the embedded rewriter. -/
def rejectsOffload (t : Transformation) : Bool :=
  t.method != "" && argTruthy t.args &&
  (t.method != "resize" ||
    (match t.args with
     | some (TransformArg.resize o) => (fitMode o.fit).isNone
     | _ => true))

/-- The range rejection condition exactly as claim C5 states it, for
comparison with the embedded rangeRejected: the last disjunct additionally
requires the start bound to be absent. -/
def specRangeReject (filesize : Int) (r : Range) : Bool :=
  (r.start.isNone && r.stop.isNone) ||
  (r.start.isSome && r.stop.isSome && decide (r.stop.getD 0 ≤ r.start.getD 0)) ||
  (r.start.isSome && decide (filesize ≤ r.start.getD 0)) ||
  (r.stop.isSome && r.start.isNone && decide (r.stop.getD 0 ≤ 0))

/-- A well-formed version 4 UUID used by the concrete scenarios. -/
def uuidEx : String := "6a1b2c3d-4e5f-4a6b-8c7d-9e0f1a2b3c4d"

/-- A second well-formed version 4 UUID used by the concrete scenarios. -/
def uuidEx2 : String := "1b2c3d4e-5f6a-4b7c-8d9e-0f1a2b3c4d5e"

/-- An admin accountability, which skips the authorization check. -/
def accAdmin : Option Accountability := some (Accountability.mk (some true))

/-- A sample operation: an explicit rotate by 90 degrees. -/
def trRotate : Transformation := Transformation.mk ("rotate") (some (TransformArg.num 90))

/-- A transformation request resolving to the single explicit rotate. -/
def reqRotNum : TransformationRequest := TransformationRequest.mk none [trRotate]

/-- A transformation request resolving to no operations. -/
def reqEmpty : TransformationRequest := TransformationRequest.mk none []

/-- The configured dimension ceiling used by the concrete scenarios. -/
def envEx : Env := Env.mk 4000

/-- A world with no settings row, no files and empty storage. -/
def emptyWorld : World :=
  World.mk none (fun _ => none) (fun _ _ => false) (fun _ => true) (fun _ => "local") (fun _ _ => "")

/-- An empty stored file (size zero), transformable type not needed. -/
def zeroFile : File :=
  File.mk uuidEx ("local") ("empty.bin") (some ("application/octet-stream")) 0 none none

/-- A world holding only the empty file, whose original bytes exist. -/
def w7 : World :=
  World.mk none (fun s => if s == uuidEx then some zeroFile else none)
    (fun _ _ => true) (fun _ => true) (fun _ => "local") (fun _ _ => "")

/-- An oversized jpeg (5000 by 5000 against a ceiling of 4000) on a local
driver, under the first UUID. -/
def bigFileA : File :=
  File.mk uuidEx ("local") ("big.jpg") (some ("image/jpeg")) 1000 (some 5000) (some 5000)

/-- An oversized jpeg on the Aliyun driver, under the second UUID. -/
def bigFileU : File :=
  File.mk uuidEx2 ("oss") ("big2.jpg") (some ("image/jpeg")) 1000 (some 5000) (some 5000)

/-- A world holding both oversized files; only the originals exist in storage;
the oss root uses the aliyunoss driver. -/
def w4 : World :=
  World.mk none
    (fun s => if s == uuidEx then some bigFileA else if s == uuidEx2 then some bigFileU else none)
    (fun _ n => n == "big.jpg" || n == "big2.jpg")
    (fun _ => true)
    (fun k => if k == "oss" then ("aliyunoss") else ("local"))
    (fun _ _ => "https://oss.example.com/big2.jpg")

/-- A small transformable jpeg under the first UUID on a local driver. -/
def imgFile : File :=
  File.mk uuidEx ("local") ("img.jpg") (some ("image/jpeg")) 100 (some 50) (some 40)

/-- A world holding only the small jpeg, with only the original in storage. -/
def w8 : World :=
  World.mk none (fun s => if s == uuidEx then some imgFile else none)
    (fun _ n => n == "img.jpg") (fun _ => true) (fun _ => "local") (fun _ _ => "")

/-- A small transformable jpeg under the second UUID on the Aliyun driver. -/
def ossImgFile : File :=
  File.mk uuidEx2 ("oss") ("pic.jpg") (some ("image/jpeg")) 100 (some 50) (some 40)

/-- A world holding only the small Aliyun-hosted jpeg, with only the original
in storage. -/
def w9 : World :=
  World.mk none (fun s => if s == uuidEx2 then some ossImgFile else none)
    (fun _ n => n == "pic.jpg") (fun _ => true) (fun _ => "aliyunoss")
    (fun _ _ => "https://oss.example.com/pic.jpg")

/-- The base URL used by the rewriter scenarios. -/
def urlEx : String := "https://example.com/a.jpg"

/-- A resize operation with the given fit mode, width 100 and height 50. -/
def rsz (fit : String) : Transformation :=
  Transformation.mk ("resize") (some (TransformArg.resize (ResizeOptions.mk (some fit) (some 100) (some 50))))

/-- Claim C1 counterexample: a non-empty operation list with the explicit
suffix given as the empty string. The claim says an explicit suffix always
yields a dot followed by the suffix, but the source tests the suffix for
truthiness, so the empty suffix falls through to the hash branch. -/
theorem getAssetSuffix_empty_explicit_suffix_cex :
    getAssetSuffix [trRotate] (some ("")) = "__" ++ objectHash [trRotate] ∧
    getAssetSuffix [trRotate] (some ("")) ≠ "." ++ "" := by
  exact ⟨rfl, by decide⟩

/-- Claim C1 (amended): the variant-suffix deriver is a pure function of the
operation list and suffix; an empty operation list yields the empty suffix, a
non-empty list with a non-empty explicit suffix yields a dot followed by the
suffix, and a non-empty list whose suffix is absent or empty yields two
underscores followed by the deterministic hash of the ordered list. Equal
lists trivially yield equal suffixes since the embedding is a function. -/
theorem getAssetSuffix_case_contract (ts : List Transformation) (s : Option String) :
    (ts = [] → getAssetSuffix ts s = "") ∧
    (ts ≠ [] → ∀ str, s = some str → str ≠ "" → getAssetSuffix ts s = "." ++ str) ∧
    (ts ≠ [] → (s = none ∨ s = some ("")) → getAssetSuffix ts s = "__" ++ objectHash ts) ∧
    (∀ ts2, ts = ts2 → getAssetSuffix ts none = getAssetSuffix ts2 none) := by
  refine ⟨?_, ?_, ?_, ?_⟩
  · intro h; subst h; rfl
  · intro hne str hs hstr
    subst hs
    have hlen : ¬(ts.length = 0) := by simpa using hne
    simp [getAssetSuffix, hlen, hstr]
  · intro hne hs
    have hlen : ¬(ts.length = 0) := by simpa using hne
    rcases hs with hs | hs <;> subst hs <;> simp [getAssetSuffix, hlen]
  · intro ts2 h; rw [h]

/-- Claim C1 witness: the three branches of the case contract at concrete
inputs. -/
theorem getAssetSuffix_case_contract_witness :
    getAssetSuffix [] none = "" ∧
    getAssetSuffix [trRotate] (some ("thumb")) = "." ++ "thumb" ∧
    getAssetSuffix [trRotate] none = "__" ++ objectHash [trRotate] :=
  ⟨(getAssetSuffix_case_contract [] none).1 rfl,
   (getAssetSuffix_case_contract [trRotate] (some ("thumb"))).2.1 (by decide) "thumb" rfl (by decide),
   (getAssetSuffix_case_contract [trRotate] none).2.2.1 (by decide) (Or.inl rfl)⟩

/-- Claim C5 counterexample: the source rejects a present end at or below
zero regardless of whether start is present, and it rejects ranges with both
bounds present and zero at most start below end whenever start reaches the
file size; the claim excludes the first case (it requires start absent) and
its final sentence denies the second. -/
theorem rangeRejected_cex :
    rangeRejected 10 (Range.mk (some (-5)) (some (-1))) = true ∧
    specRangeReject 10 (Range.mk (some (-5)) (some (-1))) = false ∧
    rangeRejected 3 (Range.mk (some 5) (some 7)) = true ∧
    ((0 : Int) ≤ 5 ∧ (5 : Int) < 7) := by decide

/-- Claim C5 (amended): the rejection check of getAsset holds exactly when
both bounds are absent, or both are present with end at most start, or start
is present and at least the file size, or end is present and at most zero
(regardless of start). -/
theorem rangeRejected_iff (filesize : Int) (r : Range) :
    rangeRejected filesize r = true ↔
      (r.start = none ∧ r.stop = none) ∨
      (∃ s e, r.start = some s ∧ r.stop = some e ∧ e ≤ s) ∨
      (∃ s, r.start = some s ∧ filesize ≤ s) ∨
      (∃ e, r.stop = some e ∧ e ≤ 0) := by
  rcases r with ⟨rs, re⟩
  rcases rs with _ | s <;> rcases re with _ | e <;> (simp [rangeRejected]; try tauto)

/-- Claim C5 witness: the characterization applied at a concrete rejected
range with both bounds absent. -/
theorem rangeRejected_iff_witness : rangeRejected 10 (Range.mk none none) = true :=
  (rangeRejected_iff 10 (Range.mk none none)).mpr (Or.inl ⟨rfl, rfl⟩)

/-- Claim C6 counterexample: a start-only range with start zero. The claim
says the end defaults to the file size minus one also for start zero, but the
source guards the block with the truthiness of start, so zero skips it and the
end stays absent. -/
theorem normalizeRange_zero_start_cex :
    normalizeRange 10 (Range.mk (some 0) none) = Range.mk (some 0) none ∧
    (normalizeRange 10 (Range.mk (some 0) none)).stop ≠ some 9 := by decide

/-- Claim C6 (amended): for a start-only range with non-zero start, the end
defaults to the file size minus one and a negative start is clamped to zero;
for start zero the range is returned unchanged. -/
theorem normalizeRange_start_only (filesize s : Int) (h : s ≠ 0) :
    normalizeRange filesize (Range.mk (some s) none) =
      Range.mk (some (if s < 0 then 0 else s)) (some (filesize - 1)) := by
  by_cases hs : s < 0 <;> simp [normalizeRange, h, hs]

/-- Claim C6 witness: the amended normalization at a positive and at a
negative concrete start. -/
theorem normalizeRange_start_only_witness :
    normalizeRange 10 (Range.mk (some 3) none) = Range.mk (some 3) (some 9) ∧
    normalizeRange 10 (Range.mk (some (-4)) none) = Range.mk (some 0) (some 9) := by
  constructor
  · have h := normalizeRange_start_only 10 3 (by decide); simpa using h
  · have h := normalizeRange_start_only 10 (-4) (by decide); simpa using h

/-- Claim C7 counterexample: an end-only request of zero bytes against a file
of size zero satisfies the stated bound (N at least the file size), yet
getAsset throws RangeNotSatisfiable instead of normalizing to a whole-file
range, because a present end at most zero is rejected. -/
theorem getAsset_end_only_zero_rejected_cex :
    (getAsset w7 envEx accAdmin uuidEx reqEmpty (some (Range.mk none (some 0)))).1 =
      Except.error AssetError.rangeNotSatisfiable := by
  rfl

/-- Claim C7 (amended): for an end-only range of N bytes with N positive and
at least the file size, normalization yields start zero and end the file size
minus one, covering the whole file. Positivity is required: a zero N is
rejected before normalization. -/
theorem normalizeRange_end_only_covers_file (filesize N : Int) (h0 : 0 < N) (h1 : filesize ≤ N) :
    normalizeRange filesize (Range.mk none (some N)) = Range.mk (some 0) (some (filesize - 1)) := by
  have hne : ¬(N = 0) := by omega
  have hlt : ¬(filesize ≤ filesize - 1) := by omega
  by_cases hz : filesize - N = 0
  · simp [normalizeRange, hne, hlt, hz]
  · have hneg : filesize - N < 0 := by omega
    simp [normalizeRange, hne, hlt, hz, hneg]

/-- Claim C7 witness: the amended normalization at N strictly above and at N
equal to the file size. -/
theorem normalizeRange_end_only_covers_file_witness :
    normalizeRange 5 (Range.mk none (some 7)) = Range.mk (some 0) (some 4) ∧
    normalizeRange 5 (Range.mk none (some 5)) = Range.mk (some 0) (some 4) := by
  constructor
  · have h := normalizeRange_end_only_covers_file 5 7 (by decide) (by decide); simpa using h
  · have h := normalizeRange_end_only_covers_file 5 5 (by decide) (by decide); simpa using h

/-- Claim C9 counterexample: a getUrl local fallback run whose resolved list
contains an explicit rotate operation still pipes the stream through the
auto-orientation rotate, because the fallback calls rotate unconditionally;
the claim says auto-orientation is applied only when no explicit rotate is
present. -/
theorem getUrl_autoorient_despite_rotate_cex :
    (reqRotNum.resolved.any (fun t => t.method == "rotate")) = true ∧
    ((getUrl w9 envEx accAdmin uuidEx2 reqRotNum).2.any
      (fun e => match e with
        | Effect.storagePut _ _ (StreamSrc.piped _ _ _ pl) _ =>
          pl.any (fun s0 => match s0 with
            | PipeStep.autoOrient => true
            | _ => false)
        | _ => false)) = true := by decide

/-- Claim C9 (amended): in the getAsset pipeline the auto-orientation rotate
appears exactly when no explicit rotate operation is in the resolved list, and
removing it leaves the operations in their given order; in the getUrl fallback
pipeline the auto-orientation rotate always appears, and removing it likewise
leaves the operations in order. -/
theorem pipeline_autoorient_spec (ts : List Transformation) :
    ((PipeStep.autoOrient ∈ buildPipelineGetAsset ts) ↔ (∀ t ∈ ts, t.method ≠ "rotate")) ∧
    ((buildPipelineGetAsset ts).filter (fun s0 => !(s0 == PipeStep.autoOrient)) = ts.map PipeStep.op) ∧
    (PipeStep.autoOrient ∈ buildPipelineGetUrl ts) ∧
    ((buildPipelineGetUrl ts).filter (fun s0 => !(s0 == PipeStep.autoOrient)) = ts.map PipeStep.op) := by
  have hmap : (ts.map PipeStep.op).filter (fun s0 => !(s0 == PipeStep.autoOrient)) = ts.map PipeStep.op := by
    induction ts with
    | nil => rfl
    | cons a l ih =>
      have hbeq : (PipeStep.op a == PipeStep.autoOrient) = false := rfl
      simp [List.filter, ih, hbeq]
  refine ⟨?_, ?_, ?_, ?_⟩
  · cases hfind : ts.find? (fun t => t.method == "rotate") with
    | none =>
      have hall := List.find?_eq_none.mp hfind
      apply iff_of_true
      · simp [buildPipelineGetAsset, hfind]
      · intro t ht
        have := hall t ht
        simpa using this
    | some t =>
      have hmem := List.mem_of_find?_eq_some hfind
      have hrot : t.method = "rotate" := by
        have := List.find?_some hfind
        simpa using this
      apply iff_of_false
      · simp [buildPipelineGetAsset, hfind]
      · intro hall
        exact absurd hrot (hall t hmem)
  · cases hfind : ts.find? (fun t => t.method == "rotate") with
    | none => simp [buildPipelineGetAsset, hfind, List.filter, hmap]
    | some t => simp [buildPipelineGetAsset, hfind, hmap]
  · simp [buildPipelineGetUrl]
  · simp [buildPipelineGetUrl, List.filter, hmap]

/-- Claim C9 witness: the always-present auto-orientation of the getUrl
fallback pipeline at the empty operation list. -/
theorem pipeline_autoorient_spec_witness : PipeStep.autoOrient ∈ buildPipelineGetUrl [] :=
  (pipeline_autoorient_spec []).2.2.1

/-- An operation satisfying the offload rejection condition makes the loop
body reject. -/
theorem opCmd_reject_of_rejectsOffload (t : Transformation) (h : rejectsOffload t = true) :
    opCmd t = OpCmd.reject := by
  unfold rejectsOffload at h
  rcases Bool.and_eq_true_iff.mp h with ⟨h12, h3⟩
  rcases Bool.and_eq_true_iff.mp h12 with ⟨h1, h2⟩
  have hm : ¬(t.method = "") := by simpa using h1
  unfold opCmd
  rw [if_neg]
  · by_cases hr : t.method = "resize"
    · rw [if_pos hr]
      rw [hr] at h3
      simp only [bne_self_eq_false, Bool.false_or] at h3
      cases ha : t.args with
      | none => rfl
      | some a =>
        cases a with
        | resize o =>
          rw [ha] at h3
          have hfit : fitMode o.fit = none := by
            simpa [Option.isNone_iff_eq_none] using h3
          simp [ha, resizeCmd, hfit]
        | str s => simp [ha]
        | num n => simp [ha]
        | otherTruthy => simp [ha]
    · rw [if_neg hr]
  · simp [hm, h2]

/-- If any operation of the list rejects, the whole process build returns
none (the early return of the empty string). -/
theorem buildProcess_none_of_mem (ts : List Transformation) (t : Transformation)
    (hmem : t ∈ ts) (h : opCmd t = OpCmd.reject) : buildProcess ts = none := by
  induction ts with
  | nil => cases hmem
  | cons a l ih =>
    rcases List.mem_cons.mp hmem with rfl | hm
    · simp [buildProcess, h]
    · have hl := ih hm
      unfold buildProcess
      cases hop : opCmd a <;> simp [hl]

/-- Claim C10 counterexample: an operation list whose only entry is a
non-resize operation with no argument. The claim says any operation other
than resize forces the empty string, but the loop body skips operations with
falsy arguments, so no command accumulates and the URL is returned unchanged
(and non-empty). -/
theorem aliyun_nonresize_no_args_cex :
    addAliyunOSSImageProcessParamsToURL urlEx [Transformation.mk ("grayscale") none] = urlEx ∧
    urlEx ≠ "" := by decide

/-- Claim C10 (amended): any operation with truthy method and argument that is
not a resize, or is a resize with an unsupported fit mode, forces the rewriter
to return the empty string wherever it occurs in the list; the supported fit
modes are encoded with the exact fragments m_lfit (contain), m_fill (cover),
m_lfit (inside), mfit (outside) and fill (fill); operations with falsy method
or argument are skipped. -/
theorem aliyun_rewrite_spec (url : String) (ts : List Transformation) (t : Transformation)
    (hmem : t ∈ ts) (hrej : rejectsOffload t = true) :
    addAliyunOSSImageProcessParamsToURL url ts = "" ∧
    addAliyunOSSImageProcessParamsToURL urlEx [rsz ("contain")] =
      "https://example.com/a.jpg?x-oss-process=image%2Fresize%2Cm_lfit%2Cw_100%2Ch_50" ∧
    addAliyunOSSImageProcessParamsToURL urlEx [rsz ("cover")] =
      "https://example.com/a.jpg?x-oss-process=image%2Fresize%2Cm_fill%2Cw_100%2Ch_50" ∧
    addAliyunOSSImageProcessParamsToURL urlEx [rsz ("inside")] =
      "https://example.com/a.jpg?x-oss-process=image%2Fresize%2Cm_lfit%2Cw_100%2Ch_50" ∧
    addAliyunOSSImageProcessParamsToURL urlEx [rsz ("outside")] =
      "https://example.com/a.jpg?x-oss-process=image%2Fresize%2Cmfit%2Cw_100%2Ch_50" ∧
    addAliyunOSSImageProcessParamsToURL urlEx [rsz ("fill")] =
      "https://example.com/a.jpg?x-oss-process=image%2Fresize%2Cfill%2Cw_100%2Ch_50" ∧
    addAliyunOSSImageProcessParamsToURL urlEx [rsz ("weird")] = "" := by
  refine ⟨?_, by decide, by decide, by decide, by decide, by decide, by decide⟩
  unfold addAliyunOSSImageProcessParamsToURL
  rw [buildProcess_none_of_mem ts t hmem (opCmd_reject_of_rejectsOffload t hrej)]

/-- Claim C10 witness: the rewriter rejects a list containing a non-resize
operation with a truthy argument, and maps the cover fit mode to the m_fill
fragment. -/
theorem aliyun_rewrite_spec_witness :
    addAliyunOSSImageProcessParamsToURL ("http://u") [Transformation.mk ("blur") (some (TransformArg.num 3))] = "" ∧
    addAliyunOSSImageProcessParamsToURL urlEx [rsz ("cover")] =
      "https://example.com/a.jpg?x-oss-process=image%2Fresize%2Cm_fill%2Cw_100%2Ch_50" := by
  have h := aliyun_rewrite_spec ("http://u") [Transformation.mk ("blur") (some (TransformArg.num 3))]
    (Transformation.mk ("blur") (some (TransformArg.num 3))) (by simp) (by decide)
  exact ⟨h.1, h.2.2.1⟩

/-- Claim C3 counterexample: with a malformed id, getAsset does fail with
Forbidden, but only after performing the directus_settings database query,
which the source issues before validating the UUID; the claim says no
database call is performed. -/
theorem getAsset_invalid_uuid_queries_settings_cex :
    (getAsset emptyWorld envEx none ("not-a-uuid") reqEmpty none).1 = Except.error AssetError.forbidden ∧
    (getAsset emptyWorld envEx none ("not-a-uuid") reqEmpty none).2 = [Effect.dbSettings] ∧
    isDbEffect Effect.dbSettings = true := by
  exact ⟨rfl, rfl, rfl⟩

/-- Claim C3 (amended): for every id that is not a well-formed version 4
UUID, getAsset and getUrl fail with Forbidden having performed no storage
call and no directus_files query; the directus_settings query is the only
effect, issued before validation. -/
theorem invalid_uuid_forbidden_settings_only (w : World) (env : Env) (acc : Option Accountability)
    (req : TransformationRequest) (r : Option Range) (id : String)
    (h : isValidUUIDv4 id = false) :
    getAsset w env acc id req r = (Except.error AssetError.forbidden, [Effect.dbSettings]) ∧
    getUrl w env acc id req = (Except.error AssetError.forbidden, [Effect.dbSettings]) ∧
    ([Effect.dbSettings].all (fun e => !(isStorageEffect e) && !(isFilesQuery e))) = true := by
  refine ⟨?_, ?_, rfl⟩
  · simp [getAsset, h]
  · simp [getUrl, h]

/-- Claim C3 witness: the amended statement at the concrete malformed id. -/
theorem invalid_uuid_forbidden_settings_only_witness :
    getAsset emptyWorld envEx none ("not-a-uuid") reqEmpty none =
      (Except.error AssetError.forbidden, [Effect.dbSettings]) ∧
    getUrl emptyWorld envEx none ("not-a-uuid") reqEmpty =
      (Except.error AssetError.forbidden, [Effect.dbSettings]) ∧
    ([Effect.dbSettings].all (fun e => !(isStorageEffect e) && !(isFilesQuery e))) = true :=
  invalid_uuid_forbidden_settings_only emptyWorld envEx none reqEmpty none ("not-a-uuid") (by decide)

/-- The dimension condition stated by claim C4 (unknown width or height, or
either dimension above the ceiling) makes the embedded guard fire; the guard
also fires on zero dimensions, which the claim does not mention. -/
theorem dims_spec_implies_guard (maxDim : Int) (w h : Option Int)
    (hd : w = none ∨ h = none ∨ (∃ v, w = some v ∧ maxDim < v) ∨ (∃ v, h = some v ∧ maxDim < v)) :
    dimensionGuardFails maxDim w h = true := by
  rcases hd with h1 | h1 | ⟨v, hv, hlt⟩ | ⟨v, hv, hlt⟩
  · simp [dimensionGuardFails, numTruthy, h1]
  · simp [dimensionGuardFails, numTruthy, h1]
  · subst hv
    by_cases hz : v = 0 <;> simp [dimensionGuardFails, numTruthy, hz, hlt]
  · subst hv
    by_cases hz : v = 0 <;> simp [dimensionGuardFails, numTruthy, hz, hlt]

/-- Under the hypotheses of claim C4 (valid id, authorized caller, existing
original, passing range, transformable request, uncached variant, dimensions
violating the stated bound), getAsset throws IllegalAssetTransformation and
its effect trace contains no storage put and no semaphore acquisition. -/
theorem getAsset_guard_aux (w : World) (env : Env) (acc : Option Accountability)
    (id : String) (req : TransformationRequest) (r nr : Option Range) (file : File)
    (h1 : isValidUUIDv4 id = true)
    (h2 : (needsAuthCheck w acc id && !(w.checkAccess id)) = false)
    (h3 : w.files id = some file)
    (h4 : w.storageExists file.storage file.filename_disk = true)
    (h5 : checkRange file.filesize r = Except.ok nr)
    (h6 : isTransformableRequest file.type (resolvePreset req file) = true)
    (h7 : w.storageExists file.storage (assetFilenameOf file (resolvePreset req file) req.suffix) = false)
    (h8 : file.width = none ∨ file.height = none ∨
          (∃ v, file.width = some v ∧ env.maxDimension < v) ∨
          (∃ v, file.height = some v ∧ env.maxDimension < v)) :
    (getAsset w env acc id req r).1 = Except.error AssetError.illegalAssetTransformation ∧
    ((getAsset w env acc id req r).2.all (fun e => !(isPutEffect e) && !(isSemAcquire e))) = true := by
  have hg : dimensionGuardFails env.maxDimension file.width file.height = true :=
    dims_spec_implies_guard env.maxDimension file.width file.height h8
  cases hAuth : needsAuthCheck w acc id with
  | false =>
    constructor <;>
      simp [getAsset, h1, hAuth, h3, h4, h5, h6, h7, hg, isPutEffect, isSemAcquire]
  | true =>
    have hChk : w.checkAccess id = true := by
      revert h2; cases hc : w.checkAccess id <;> simp [hAuth, hc]
    constructor <;>
      simp [getAsset, h1, hAuth, hChk, h3, h4, h5, h6, h7, hg, isPutEffect, isSemAcquire]

/-- Under the hypotheses of claim C4 on the getUrl local fallback (valid id,
authorized caller, Aliyun driver, transformable request, empty rewritten url,
uncached variant, dimensions violating the stated bound), getUrl throws
IllegalAssetTransformation and its effect trace contains no storage put and
no semaphore acquisition. -/
theorem getUrl_guard_aux (w : World) (env : Env) (acc : Option Accountability)
    (id : String) (req : TransformationRequest) (file : File)
    (h1 : isValidUUIDv4 id = true)
    (h2 : (needsAuthCheck w acc id && !(w.checkAccess id)) = false)
    (h3 : w.files id = some file)
    (h4 : w.driverName file.storage = "aliyunoss")
    (h5 : isTransformableRequest file.type (resolvePreset req file) = true)
    (h6 : (if file.filesize < 20971520 then
            addAliyunOSSImageProcessParamsToURL (w.storageUrl file.storage file.filename_disk)
              (resolvePreset req file)
          else ("")) = "")
    (h7 : w.storageExists file.storage (assetFilenameOf file (resolvePreset req file) req.suffix) = false)
    (h8 : file.width = none ∨ file.height = none ∨
          (∃ v, file.width = some v ∧ env.maxDimension < v) ∨
          (∃ v, file.height = some v ∧ env.maxDimension < v)) :
    (getUrl w env acc id req).1 = Except.error AssetError.illegalAssetTransformation ∧
    ((getUrl w env acc id req).2.all (fun e => !(isPutEffect e) && !(isSemAcquire e))) = true := by
  have hg : dimensionGuardFails env.maxDimension file.width file.height = true :=
    dims_spec_implies_guard env.maxDimension file.width file.height h8
  cases hAuth : needsAuthCheck w acc id with
  | false =>
    constructor <;>
      simp [getUrl, h1, hAuth, h3, h4, h5, h6, h7, hg, isPutEffect, isSemAcquire]
  | true =>
    have hChk : w.checkAccess id = true := by
      revert h2; cases hc : w.checkAccess id <;> simp [hAuth, hc]
    constructor <;>
      simp [getUrl, h1, hAuth, hChk, h3, h4, h5, h6, h7, hg, isPutEffect, isSemAcquire]

/-- Claim C4 counterexample: a transformable request for an uncached,
oversized image through getUrl on a storage root whose driver is not the
eligible provider returns url empty and file null without failing; the claim
says every such request fails with IllegalAssetTransformation. -/
theorem getUrl_foreign_driver_no_guard_cex :
    (getUrl w4 envEx accAdmin uuidEx reqRotNum).1 = Except.ok (UrlResult.mk ("") none) ∧
    bigFileA.width = some 5000 ∧ envEx.maxDimension = 4000 := by
  exact ⟨rfl, rfl, rfl⟩

/-- Claim C4 (amended): for every transformable request (with absent or
satisfiable range) whose file has unknown width or height or a dimension above
the ceiling and whose variant is not cached, getAsset fails with
IllegalAssetTransformation without acquiring the gate and without any storage
put; getUrl does the same whenever it reaches the local fallback (eligible
driver and empty rewritten url), while with an ineligible driver it returns an
empty url and null file, and a successful remote rewrite returns a URL with no
dimension check at all. -/
theorem oversized_uncached_rejected_before_gate (w : World) (env : Env)
    (acc : Option Accountability) (idA idU : String) (reqA reqU : TransformationRequest)
    (r nr : Option Range) (fileA fileU : File)
    (hA1 : isValidUUIDv4 idA = true)
    (hA2 : (needsAuthCheck w acc idA && !(w.checkAccess idA)) = false)
    (hA3 : w.files idA = some fileA)
    (hA4 : w.storageExists fileA.storage fileA.filename_disk = true)
    (hA5 : checkRange fileA.filesize r = Except.ok nr)
    (hA6 : isTransformableRequest fileA.type (resolvePreset reqA fileA) = true)
    (hA7 : w.storageExists fileA.storage (assetFilenameOf fileA (resolvePreset reqA fileA) reqA.suffix) = false)
    (hA8 : fileA.width = none ∨ fileA.height = none ∨
           (∃ v, fileA.width = some v ∧ env.maxDimension < v) ∨
           (∃ v, fileA.height = some v ∧ env.maxDimension < v))
    (hU1 : isValidUUIDv4 idU = true)
    (hU2 : (needsAuthCheck w acc idU && !(w.checkAccess idU)) = false)
    (hU3 : w.files idU = some fileU)
    (hU4 : w.driverName fileU.storage = "aliyunoss")
    (hU5 : isTransformableRequest fileU.type (resolvePreset reqU fileU) = true)
    (hU6 : (if fileU.filesize < 20971520 then
             addAliyunOSSImageProcessParamsToURL (w.storageUrl fileU.storage fileU.filename_disk)
               (resolvePreset reqU fileU)
           else ("")) = "")
    (hU7 : w.storageExists fileU.storage (assetFilenameOf fileU (resolvePreset reqU fileU) reqU.suffix) = false)
    (hU8 : fileU.width = none ∨ fileU.height = none ∨
           (∃ v, fileU.width = some v ∧ env.maxDimension < v) ∨
           (∃ v, fileU.height = some v ∧ env.maxDimension < v)) :
    (getAsset w env acc idA reqA r).1 = Except.error AssetError.illegalAssetTransformation ∧
    ((getAsset w env acc idA reqA r).2.all (fun e => !(isPutEffect e) && !(isSemAcquire e))) = true ∧
    (getUrl w env acc idU reqU).1 = Except.error AssetError.illegalAssetTransformation ∧
    ((getUrl w env acc idU reqU).2.all (fun e => !(isPutEffect e) && !(isSemAcquire e))) = true := by
  have hA := getAsset_guard_aux w env acc idA reqA r nr fileA hA1 hA2 hA3 hA4 hA5 hA6 hA7 hA8
  have hU := getUrl_guard_aux w env acc idU reqU fileU hU1 hU2 hU3 hU4 hU5 hU6 hU7 hU8
  exact ⟨hA.1, hA.2, hU.1, hU.2⟩

/-- Claim C4 witness: the amended statement at the two concrete oversized
files (local driver for getAsset, Aliyun driver with rejected rewrite for the
getUrl fallback). -/
theorem oversized_uncached_rejected_before_gate_witness :
    (getAsset w4 envEx accAdmin uuidEx reqRotNum none).1 =
      Except.error AssetError.illegalAssetTransformation ∧
    ((getAsset w4 envEx accAdmin uuidEx reqRotNum none).2.all
      (fun e => !(isPutEffect e) && !(isSemAcquire e))) = true ∧
    (getUrl w4 envEx accAdmin uuidEx2 reqRotNum).1 =
      Except.error AssetError.illegalAssetTransformation ∧
    ((getUrl w4 envEx accAdmin uuidEx2 reqRotNum).2.all
      (fun e => !(isPutEffect e) && !(isSemAcquire e))) = true :=
  oversized_uncached_rejected_before_gate w4 envEx accAdmin uuidEx uuidEx2 reqRotNum reqRotNum
    none none bigFileA bigFileU
    (by decide) (by decide) (by decide) (by decide) rfl (by decide) (by decide)
    (Or.inr (Or.inr (Or.inl ⟨5000, rfl, by decide⟩)))
    (by decide) (by decide) (by decide) (by decide) (by decide) (by decide) (by decide)
    (Or.inr (Or.inr (Or.inl ⟨5000, rfl, by decide⟩)))

/-- Claim C8: when getAsset materializes a new variant, the gated section
opens the source read stream with the caller byte range and pipes exactly that
ranged stream into the storage put at the variant path; the transform input is
therefore not the complete original file whenever a range is supplied, and the
cached variant depends on the range even though the cache key does not. The
trace of a concrete cache-miss transform with range 2 to 5 shows the put whose
piped source carries that range, inside the gated section. -/
theorem getAsset_pipes_ranged_source_into_variant :
    ((getAsset w8 envEx accAdmin uuidEx reqRotNum (some (Range.mk (some 2) (some 5)))).2.any
      (fun e => match e with
        | Effect.storagePut _ _ (StreamSrc.piped _ _ (some r0) _) _ =>
          r0 == Range.mk (some 2) (some 5)
        | _ => false)) = true ∧
    ((getAsset w8 envEx accAdmin uuidEx reqRotNum (some (Range.mk (some 2) (some 5)))).2.any
      isSemAcquire) = true := by decide

end Assets
